import Mathlib

/-!
Verification of the weather-agent-with-RAG pipeline.

Shallow embedding of the repository's core logic:
* `agent.py` — intent routing (`_should_use_weather`), city extraction
  (`_extract_city_from_query`), the weather/RAG handlers and `process_query`;
* `weather_service.py` — `get_weather` field extraction and
  `format_weather_response`;
* `rag_service.py` — `RAGService.query`;
* `pdf_processor.py` — `chunk_text` (the external text splitter is modelled
  from the spec);
* `vector_store.py` — `add_documents` point-id derivation (true MD5) and
  upsert semantics.

Python string primitives (`lower`, `split`, `strip`, `rstrip`, `title`,
substring test) are modelled character-exactly for ASCII data, which is the
alphabet of every keyword, anchor and punctuation set in the source.
-/

namespace WeatherAgent

/-! ## Python string primitives (ASCII model) -/

/-- ASCII model of `str.lower` on a single character. -/
def pyLowerChar (c : Char) : Char :=
  if 'A' ≤ c ∧ c ≤ 'Z' then Char.ofNat (c.toNat + 32) else c

/-- ASCII model of `str.upper` on a single character. -/
def pyUpperChar (c : Char) : Char :=
  if 'a' ≤ c ∧ c ≤ 'z' then Char.ofNat (c.toNat - 32) else c

/-- ASCII alphabetic test (Python `str.isalpha` restricted to ASCII). -/
def isAsciiAlpha (c : Char) : Bool :=
  ('a' ≤ c && c ≤ 'z') || ('A' ≤ c && c ≤ 'Z')

/-- `str.lower` over a whole string. -/
def pyLower (s : String) : String := String.mk (s.data.map pyLowerChar)

/-- Python whitespace class used by `strip`/`split`. -/
def pyIsSpace (c : Char) : Bool :=
  c = ' ' || c = '\t' || c = '\n' || c = '\r' || c = '\x0b' || c = '\x0c'

/-- Python `str.strip()` (no argument): drop whitespace at both ends. -/
def pyStrip (s : List Char) : List Char :=
  ((s.dropWhile pyIsSpace).reverse.dropWhile pyIsSpace).reverse

/-- Python `str.rstrip(chars)`: drop any of `cs` from the right end. -/
def pyRstripChars (cs : List Char) (s : List Char) : List Char :=
  (s.reverse.dropWhile (fun c => cs.contains c)).reverse

/-- Python `pat in s` substring test, as a boolean on character lists. -/
def substrB (pat : List Char) : List Char → Bool
  | [] => pat.isEmpty
  | c :: t => pat.isPrefixOf (c :: t) || substrB pat t

/-- Everything after the first occurrence of `pat` in `s`
(`s.split(pat, 1)[1]`), or `none` when `pat` does not occur. -/
def afterFirst (pat : List Char) : List Char → Option (List Char)
  | [] => if pat.isEmpty then some [] else none
  | c :: t =>
    if pat.isPrefixOf (c :: t) then some ((c :: t).drop pat.length)
    else afterFirst pat t

/-- Structural helper for `pyWords`; the fuel is an upper bound on the
list length, so it never runs out on the intended calls. -/
def pyWordsFuel : Nat → List Char → List (List Char)
  | 0, _ => []
  | _, [] => []
  | fuel + 1, c :: t =>
    if pyIsSpace c then pyWordsFuel fuel t
    else (c :: t.takeWhile (fun x => !pyIsSpace x)) ::
      pyWordsFuel fuel (t.dropWhile (fun x => !pyIsSpace x))

/-- Python `str.split()` (no argument): words separated by whitespace runs. -/
def pyWords (s : List Char) : List (List Char) := pyWordsFuel s.length s

/-- Helper for `pyTitle`: the flag records whether the previous character
was alphabetic. -/
def pyTitleGo (prevAlpha : Bool) : List Char → List Char
  | [] => []
  | c :: t =>
    (if isAsciiAlpha c then (if prevAlpha then pyLowerChar c else pyUpperChar c) else c) ::
      pyTitleGo (isAsciiAlpha c) t

/-- ASCII model of Python `str.title()`: uppercase every alphabetic character
that follows a non-alphabetic one, lowercase the rest. -/
def pyTitle (s : List Char) : List Char := pyTitleGo false s

/-! ## Intent router — `agent.py`, `AIAgent._should_use_weather` -/

/-- The keyword vocabulary of `_should_use_weather` (agent.py lines 78-82). -/
def weatherKeywords : List String :=
  ["weather", "temperature", "forecast", "humidity",
   "wind", "rain", "snow", "climate", "temperature in",
   "weather in", "how\x27s the weather", "what\x27s the weather"]

/-- `AIAgent._should_use_weather`: lower-case the query; if any keyword is a
substring, route `"weather"`, else `"rag"` (agent.py lines 65-89). -/
def shouldUseWeather (query : String) : String :=
  if weatherKeywords.any (fun k => substrB k.data (pyLower query).data) then "weather"
  else "rag"

/-- The route label of the spec (§3): WEATHER or DOCUMENT_QA. -/
inductive Route where
  | WEATHER
  | DOCUMENT_QA
deriving DecidableEq, Repr

/-- The spec's `IntentRouter.classify` (§4.1), realised by
`_should_use_weather`: graph edge `"weather"` is the WEATHER route, the
`"rag"` edge is DOCUMENT_QA. -/
def classify (query : String) : Route :=
  if shouldUseWeather query = "weather" then Route.WEATHER else Route.DOCUMENT_QA

/-! ## City extractor — `agent.py`, `AIAgent._extract_city_from_query` -/

/-- The anchor patterns, in source order (agent.py lines 159-165). -/
def cityAnchors : List String := ["in ", "for ", "at ", "weather ", "temperature "]

/-- First words of common multi-word cities (agent.py line 180). -/
def multiCityFirstWords : List (List Char) :=
  ["new".data, "san".data, "los".data, "saint".data, "st".data]

/-- Lines 172-184 of agent.py: clean the text after an anchor, split into
words, and build the title-cased city; `none` when no word remains. -/
def cityFromSuffix (rest : List Char) : Option (List Char) :=
  let cityPart := pyStrip (pyRstripChars "?.,!".data (pyStrip rest))
  match pyWords cityPart with
  | [] => none
  | [w] => some (pyTitle w)
  | w :: w2 :: _ =>
    some (pyTitle (if multiCityFirstWords.contains w then w ++ [' '] ++ w2 else w))

/-- The `for pattern in patterns` loop of `_extract_city_from_query`:
try each anchor in order; an anchor whose suffix yields no word falls
through to the next anchor (agent.py lines 167-186). -/
def extractLoop (ql : List Char) : List String → List Char
  | [] => []
  | pat :: pats =>
    match afterFirst pat.data ql with
    | none => extractLoop ql pats
    | some rest =>
      match cityFromSuffix rest with
      | none => extractLoop ql pats
      | some city => city

/-- `AIAgent._extract_city_from_query` (agent.py lines 146-186). -/
def extractCity (query : String) : String :=
  String.mk (extractLoop (pyLower query).data cityAnchors)

/-- The extraction algorithm exactly as the spec's §4.2 words describe it:
"on the FIRST anchor found, split the query at its first occurrence and take
everything after it"; when that suffix yields no word there is no "first
word" to return, so the result defaults to the empty string. This
spec-description function exists to be compared with `extractCity`. -/
def extractCityFirstAnchorSpec (query : String) : String :=
  let ql := (pyLower query).data
  match cityAnchors.find? (fun pat => substrB pat.data ql) with
  | none => ""
  | some pat =>
    match (afterFirst pat.data ql).bind cityFromSuffix with
    | none => ""
    | some city => String.mk city

/-- The amended spec description: the scan returns the processed suffix of
the first anchor that both occurs in the query and leaves at least one word
after splitting and cleaning; anchors whose suffix yields no word are
skipped, and the empty string results when no anchor qualifies. -/
def extractCityAmendedSpec (query : String) : String :=
  let ql := (pyLower query).data
  match cityAnchors.findSome? (fun pat => (afterFirst pat.data ql).bind cityFromSuffix) with
  | none => ""
  | some city => String.mk city

/-! ## MD5 — `hashlib.md5`, used by `vector_store.py` for point ids -/

/-- 2^32, the word modulus of MD5. -/
def M32 : Nat := 4294967296

/-- Left-rotate a 32-bit word by `n` places. -/
def rotl32 (x n : Nat) : Nat := ((x <<< n) ||| (x >>> (32 - n))) % M32

/-- Bitwise complement of a 32-bit word. -/
def not32 (x : Nat) : Nat := x ^^^ 4294967295

/-- UTF-8 encoding of one character (`str.encode()`). -/
def utf8Bytes (c : Char) : List Nat :=
  let n := c.toNat
  if n < 128 then [n]
  else if n < 2048 then [192 + n / 64, 128 + n % 64]
  else if n < 65536 then [224 + n / 4096, 128 + (n / 64) % 64, 128 + n % 64]
  else [240 + n / 262144, 128 + (n / 4096) % 64, 128 + (n / 64) % 64, 128 + n % 64]

/-- UTF-8 bytes of a string. -/
def strBytes (s : String) : List Nat := s.data.flatMap utf8Bytes

/-- `k` bytes of `n`, little-endian. -/
def leBytes : Nat → Nat → List Nat
  | 0, _ => []
  | k + 1, n => n % 256 :: leBytes k (n / 256)

/-- MD5 padding: append `0x80`, zero-fill to 56 mod 64, then the original
bit length as 8 little-endian bytes. -/
def md5Pad (msg : List Nat) : List Nat :=
  let len := msg.length
  let z := (119 - len % 64) % 64
  msg ++ [128] ++ List.replicate z 0 ++ leBytes 8 ((len * 8) % 2 ^ 64)

/-- Structural helper for `toBlocks`; the fuel is an upper bound on the
list length. -/
def toBlocksFuel : Nat → List Nat → List (List Nat)
  | 0, _ => []
  | _, [] => []
  | fuel + 1, b :: bs => (b :: bs).take 64 :: toBlocksFuel fuel ((b :: bs).drop 64)

/-- Split a byte list into successive 64-byte blocks. -/
def toBlocks (bs : List Nat) : List (List Nat) := toBlocksFuel bs.length bs

/-- Group bytes into 32-bit little-endian words. -/
def leWords : List Nat → List Nat
  | b0 :: b1 :: b2 :: b3 :: rest =>
    (b0 + 256 * b1 + 65536 * b2 + 16777216 * b3) :: leWords rest
  | _ => []

/-- The MD5 sine-derived constant table (RFC 1321 `T[i]`). -/
def md5K : List Nat :=
  [3614090360, 3905402710, 606105819, 3250441966, 4118548399, 1200080426,
   2821735955, 4249261313, 1770035416, 2336552879, 4294925233, 2304563134,
   1804603682, 4254626195, 2792965006, 1236535329, 4129170786, 3225465664,
   643717713, 3921069994, 3593408605, 38016083, 3634488961, 3889429448,
   568446438, 3275163606, 4107603335, 1163531501, 2850285829, 4243563512,
   1735328473, 2368359562, 4294588738, 2272392833, 1839030562, 4259657740,
   2763975236, 1272893353, 4139469664, 3200236656, 681279174, 3936430074,
   3572445317, 76029189, 3654602809, 3873151461, 530742520, 3299628645,
   4096336452, 1126891415, 2878612391, 4237533241, 1700485571, 2399980690,
   4293915773, 2240044497, 1873313359, 4264355552, 2734768916, 1309151649,
   4149444226, 3174756917, 718787259, 3951481745]

/-- The MD5 per-round rotation amounts. -/
def md5S : List Nat :=
  [7, 12, 17, 22, 7, 12, 17, 22, 7, 12, 17, 22, 7, 12, 17, 22,
   5, 9, 14, 20, 5, 9, 14, 20, 5, 9, 14, 20, 5, 9, 14, 20,
   4, 11, 16, 23, 4, 11, 16, 23, 4, 11, 16, 23, 4, 11, 16, 23,
   6, 10, 15, 21, 6, 10, 15, 21, 6, 10, 15, 21, 6, 10, 15, 21]

/-- The running 128-bit MD5 state. -/
structure MD5State where
  a : Nat
  b : Nat
  c : Nat
  d : Nat
deriving DecidableEq, Repr

/-- The MD5 initialisation vector. -/
def md5Init : MD5State := ⟨1732584193, 4023233417, 2562383102, 271733878⟩

/-- One of the 64 MD5 rounds over the message words `M`. -/
def md5Round (M : List Nat) (st : MD5State) (i : Nat) : MD5State :=
  let fg : Nat × Nat :=
    if i < 16 then ((st.b &&& st.c) ||| (not32 st.b &&& st.d), i)
    else if i < 32 then ((st.d &&& st.b) ||| (not32 st.d &&& st.c), (5 * i + 1) % 16)
    else if i < 48 then (st.b ^^^ st.c ^^^ st.d, (3 * i + 5) % 16)
    else (st.c ^^^ (st.b ||| not32 st.d), (7 * i) % 16)
  let f := (fg.1 + st.a + md5K.getD i 0 + M.getD fg.2 0) % M32
  ⟨st.d, (st.b + rotl32 f (md5S.getD i 0)) % M32, st.b, st.c⟩

/-- Process one 64-byte block: 64 rounds, then add into the running state. -/
def md5ProcessBlock (st : MD5State) (block : List Nat) : MD5State :=
  let M := leWords block
  let f := (List.range 64).foldl (md5Round M) st
  ⟨(st.a + f.a) % M32, (st.b + f.b) % M32, (st.c + f.c) % M32, (st.d + f.d) % M32⟩

/-- The 16-byte MD5 digest of a byte sequence. -/
def md5Digest (msg : List Nat) : List Nat :=
  let f := (toBlocks (md5Pad msg)).foldl md5ProcessBlock md5Init
  leBytes 4 f.a ++ leBytes 4 f.b ++ leBytes 4 f.c ++ leBytes 4 f.d

/-- Lowercase hex character of a value below 16. -/
def hexChar (n : Nat) : Char :=
  if n < 10 then Char.ofNat (48 + n) else Char.ofNat (87 + n)

/-- `hashlib.md5(bytes).hexdigest()`. -/
def md5Hex (msg : List Nat) : String :=
  String.mk ((md5Digest msg).flatMap (fun b => [hexChar (b / 16), hexChar (b % 16)]))

/-- Numeric value of a lowercase hex digit. -/
def hexDigitVal (c : Char) : Nat :=
  if c.toNat < 97 then c.toNat - 48 else c.toNat - 87

/-- `int(hashlib.md5(text.encode()).hexdigest()[:8], 16)`
(vector_store.py line 62). -/
def textHash (t : String) : Nat :=
  ((md5Hex (strBytes t)).data.take 8).foldl (fun acc c => acc * 16 + hexDigitVal c) 0

/-- `point_id = text_hash + idx` (vector_store.py line 64). -/
def mkPointId (t : String) (idx : Nat) : Nat := textHash t + idx

/-! ## Weather service — `weather_service.py` -/

/-- The fields of the OpenWeatherMap JSON payload that `get_weather` reads.
`windSpeed` models `data.get("wind", {}).get("speed", 0)` (absent ↦ `none`)
and `visibility` models presence and raw integer value of
`data.get("visibility")`. Numbers are exact rationals: the claims under
verification branch on presence and zero-ness, not on float rounding. -/
structure ApiData where
  name : String
  country : String
  temp : Rat
  feelsLike : Rat
  humidity : Int
  pressure : Int
  description : String
  windSpeed : Option Rat
  visibility : Option Int
deriving DecidableEq, Repr

/-- The dictionary returned by `WeatherService.get_weather`
(weather_service.py lines 40-51). -/
structure WeatherRecord where
  city : String
  country : String
  temperature : Rat
  feels_like : Rat
  humidity : Int
  pressure : Int
  description : String
  wind_speed : Rat
  visibility : Option Rat
  units : String
deriving DecidableEq, Repr

/-- `WeatherService.get_weather` field extraction (weather_service.py
lines 40-51): in particular
`data.get("visibility", 0) / 1000 if data.get("visibility") else None`,
where a present-but-zero raw visibility is falsy. -/
def getWeather (d : ApiData) (units : String) : WeatherRecord :=
  { city := d.name
    country := d.country
    temperature := d.temp
    feels_like := d.feelsLike
    humidity := d.humidity
    pressure := d.pressure
    description := d.description
    wind_speed := d.windSpeed.getD 0
    visibility :=
      match d.visibility with
      | some n => if n ≠ 0 then some ((n : Rat) / 1000) else none
      | none => none
    units := units }

/-- Python `f"{x:.1f}"` on an exact rational: one decimal place,
ties to even. -/
def fmt1 (q : Rat) : String :=
  let x := q * 10
  let fl : Int := ⌊x⌋
  let n10 : Int :=
    if (x - fl : Rat) > 1 / 2 then fl + 1
    else if (x - fl : Rat) < 1 / 2 then fl
    else if fl % 2 = 0 then fl else fl + 1
  if n10 < 0 then
    "-" ++ toString ((-n10).toNat / 10) ++ "." ++ toString ((-n10).toNat % 10)
  else
    toString (n10.toNat / 10) ++ "." ++ toString (n10.toNat % 10)

/-- `visibility_text` (weather_service.py lines 68-69): a kilometre value
with one decimal, or the em-dash placeholder when `None`. -/
def visibilityText (v : Option Rat) : String :=
  match v with
  | some x => fmt1 x ++ " km"
  | none => "—"

/-- The `response_lines` list of `format_weather_response`
(weather_service.py lines 74-82). -/
def responseLines (w : WeatherRecord) : List String :=
  let unitSymbol := if w.units = "metric" then "°C" else "°F"
  ["**🌦 Weather · " ++ w.city ++ ", " ++ w.country ++ "**",
   "",
   "- **Temperature:** " ++ fmt1 w.temperature ++ unitSymbol ++
     " (feels like " ++ fmt1 w.feels_like ++ unitSymbol ++ ")",
   "- **Conditions:** " ++ String.mk (pyTitle w.description.data),
   "- **Humidity / Pressure:** " ++ toString w.humidity ++ "% · " ++
     toString w.pressure ++ " hPa",
   "- **Wind:** " ++ fmt1 w.wind_speed ++ " m/s (" ++
     fmt1 (w.wind_speed * (36 / 10 : Rat)) ++ " km/h)",
   "- **Visibility:** " ++ visibilityText w.visibility]

/-- `WeatherService.format_weather_response` (weather_service.py 57-84). -/
def formatWeatherResponse (w : WeatherRecord) : String :=
  String.intercalate "\n" (responseLines w)

/-! ## RAG service — `rag_service.py` -/

/-- A metadata value stored in a payload dictionary. -/
inductive MetaVal where
  | int (n : Int)
  | str (s : String)
deriving DecidableEq, Repr

/-- A Python dictionary with string keys, as an update-in-place
association list. -/
abbrev Dict := List (String × MetaVal)

/-- Dictionary key lookup. -/
def dictLookup (k : String) : Dict → Option MetaVal
  | [] => none
  | (k', v) :: rest => if k' = k then some v else dictLookup k rest

/-- Python `d[k] = v`: update the existing binding in place, else append. -/
def dictInsert (d : Dict) (k : String) (v : MetaVal) : Dict :=
  match d with
  | [] => [(k, v)]
  | (k', v') :: rest => if k' = k then (k, v) :: rest else (k', v') :: dictInsert rest k v

/-- Python `{**base, **m}`-style merge: the bindings of `m` override those
of `base`. -/
def dictMerge (base : Dict) (m : Dict) : Dict :=
  m.foldl (fun d kv => dictInsert d kv.1 kv.2) base

/-- A search hit as formatted by `VectorStore.search`
(vector_store.py lines 106-112). -/
structure RetrievedDoc where
  text : String
  metadata : Dict
  score : Rat
deriving DecidableEq, Repr

/-- The dictionary returned by `RAGService.query`
(rag_service.py lines 49-53 and 71-75). -/
structure RagResult where
  answer : String
  sources : List Dict
  retrieved_chunks : List RetrievedDoc
deriving DecidableEq, Repr

/-- The fixed empty-retrieval answer (rag_service.py line 50). -/
def noInfoAnswer : String :=
  "I couldn\x27t find any relevant information in the documents to answer your question."

/-- `RAGService.query` (rag_service.py lines 34-75), with the vector search
and the LLM chain as oracle parameters: `search question top_k` is
`self.vector_store.search(question, top_k)`, and `llm context question` is
`(self.prompt_template | self.llm).invoke(...).content`. -/
def ragQuery (search : String → Nat → List RetrievedDoc) (llm : String → String → String)
    (question : String) (topK : Nat) : RagResult :=
  let retrieved := search question topK
  if retrieved.isEmpty then
    { answer := noInfoAnswer, sources := [], retrieved_chunks := [] }
  else
    let context := String.intercalate "\n\n---\n\n" (retrieved.map (fun d => d.text))
    { answer := llm context question
      sources := retrieved.map (fun d => d.metadata)
      retrieved_chunks := retrieved }

/-! ## Agent orchestration — `agent.py` -/

/-- The `AgentState` TypedDict (agent.py lines 11-16). -/
structure AgentState where
  messages : List String
  query : String
  route : String
  response : String
deriving DecidableEq, Repr

/-- The fixed guidance message of `_handle_weather` (agent.py line 109). -/
def guidanceMessage : String :=
  "I couldn\x27t identify a city name in your query. Please specify a city, for example: \x27What\x27s the weather in London?\x27"

/-- `AIAgent._handle_weather` (agent.py lines 91-121). The weather lookup is
an oracle `getw : city → Except error record`; a `.error` outcome models an
exception caught by the `except` clause and turned into the apology text. -/
def handleWeather (getw : String → Except String WeatherRecord) (st : AgentState) : AgentState :=
  let city := extractCity st.query
  if city = "" then
    { st with response := guidanceMessage, route := "weather" }
  else
    match getw city with
    | .ok d => { st with response := formatWeatherResponse d, route := "weather" }
    | .error e =>
      { st with
        response := "Sorry, I encountered an error fetching weather data: " ++ e
        route := "weather" }

/-- `AIAgent._handle_rag` (agent.py lines 123-144), with `rag` the oracle
for `self.rag_service.query`. -/
def handleRag (rag : String → Except String RagResult) (st : AgentState) : AgentState :=
  match rag st.query with
  | .ok r => { st with response := r.answer, route := "rag" }
  | .error e =>
    { st with
      response := "Sorry, I encountered an error processing your query: " ++ e
      route := "rag" }

/-- `AIAgent._route_query`, the identity entry node (agent.py lines 61-63). -/
def routeQueryNode (st : AgentState) : AgentState := st

/-- The result dictionary of `process_query` (agent.py lines 208-212). -/
structure AgentResult where
  query : String
  response : String
  route : String
deriving DecidableEq, Repr

/-- `AIAgent.process_query` (agent.py lines 188-212): build the initial
state, run the compiled graph (route node, then the conditional edge chosen
by `_should_use_weather`, then the terminal handler), and project the
result fields. -/
def processQuery (getw : String → Except String WeatherRecord)
    (rag : String → Except String RagResult) (query : String) : AgentResult :=
  let st0 : AgentState := { messages := [], query := query, route := "", response := "" }
  let st1 := routeQueryNode st0
  let stf :=
    if shouldUseWeather st1.query = "weather" then handleWeather getw st1
    else handleRag rag st1
  { query := query, response := stf.response, route := stf.route }

/-! ## Document chunker — `pdf_processor.py` -/

/-- `CHUNK_SIZE` (config.py line 28). -/
def CHUNK_SIZE : Nat := 1000

/-- `CHUNK_OVERLAP` (config.py line 29). -/
def CHUNK_OVERLAP : Nat := 200

/-- Structural helper for `splitWindows`; the fuel is an upper bound on the
list length. -/
def splitWindowsFuel : Nat → List Char → List (List Char)
  | 0, _ => []
  | fuel + 1, cs =>
    if cs.length ≤ CHUNK_SIZE then (if cs.isEmpty then [] else [cs])
    else cs.take CHUNK_SIZE :: splitWindowsFuel fuel (cs.drop (CHUNK_SIZE - CHUNK_OVERLAP))

/-- Modelled from the spec: the text splitter used by `chunk_text` is the
external `langchain` `RecursiveCharacterTextSplitter`, whose code is not
part of this repository; §4.4 of the spec describes it as splitting "into
overlapping windows" with "target window size and overlap ...
configuration constants", "preserving no-loss coverage of the input".
Modelled as fixed-size windows of `CHUNK_SIZE` characters advancing by
`CHUNK_SIZE - CHUNK_OVERLAP`, so consecutive windows overlap in
`CHUNK_OVERLAP` characters; empty input yields no windows. -/
def splitWindows (cs : List Char) : List (List Char) :=
  splitWindowsFuel cs.length cs

/-- `split_text` on a string, producing chunk strings. -/
def splitText (s : String) : List String := (splitWindows s.data).map String.mk

/-- One element of the list returned by `chunk_text`
(pdf_processor.py lines 67-70). -/
structure Chunk where
  text : String
  metadata : Dict
deriving DecidableEq, Repr

/-- The `chunk_metadata` dictionary (pdf_processor.py lines 62-66):
`{"chunk_index": idx, "total_chunks": len(chunks), **(metadata or {})}`,
so the caller's metadata overrides the injected keys on a key clash. -/
def chunkMetadata (idx total : Nat) (m : Dict) : Dict :=
  dictMerge [("chunk_index", MetaVal.int idx), ("total_chunks", MetaVal.int total)] m

/-- `PDFProcessor.chunk_text` (pdf_processor.py lines 47-72). -/
def chunkText (t : String) (m : Dict) : List Chunk :=
  let chunks := splitText t
  chunks.enum.map (fun p => { text := p.2, metadata := chunkMetadata p.1 chunks.length m })

/-- Reassembly of the original text from produced chunks: each chunk
contributes its leading non-overlapping span (`CHUNK_SIZE - CHUNK_OVERLAP`
characters), the final chunk contributes itself whole. -/
def reconChunks : List (List Char) → List Char
  | [] => []
  | [c] => c
  | c :: c2 :: rest => c.take (CHUNK_SIZE - CHUNK_OVERLAP) ++ reconChunks (c2 :: rest)

/-! ## Vector store — `vector_store.py`, `VectorStore.add_documents` -/

/-- A Qdrant `PointStruct` (vector_store.py lines 66-72). -/
structure DbPoint where
  id : Nat
  vector : List Int
  payload : Dict
deriving DecidableEq, Repr

/-- The point list built by `add_documents` (vector_store.py lines 54-72):
per text, id `md5-prefix + batch index`, the embedding vector, and the
metadata with `"text"` set to the chunk text. -/
def buildPoints (texts : List String) (metadatas : List Dict)
    (emb : String → List Int) : List DbPoint :=
  texts.enum.map (fun p =>
    let m := if metadatas.isEmpty then [] else metadatas.getD p.1 []
    { id := mkPointId p.2 p.1
      vector := emb p.2
      payload := dictInsert m "text" (MetaVal.str p.2) })

/-- Qdrant upsert of one point: overwrite the live record carrying the same
id, else append. -/
def upsertPoint (store : List DbPoint) (p : DbPoint) : List DbPoint :=
  if store.any (fun r => r.id = p.id) then
    store.map (fun r => if r.id = p.id then p else r)
  else store ++ [p]

/-- Qdrant upsert of a point batch (vector_store.py lines 75-79). -/
def upsertPoints (store : List DbPoint) (ps : List DbPoint) : List DbPoint :=
  ps.foldl upsertPoint store

/-- `VectorStore.add_documents` (vector_store.py lines 40-81), with the
embedding service as an oracle. -/
def addDocuments (store : List DbPoint) (texts : List String)
    (metadatas : List Dict) (emb : String → List Int) : List DbPoint :=
  if texts.isEmpty then store else upsertPoints store (buildPoints texts metadatas emb)

/-- The ids of the live records. -/
def storeIds (s : List DbPoint) : List Nat := s.map (fun r => r.id)

/-- How many live records carry `t` as their payload text. -/
def countText (s : List DbPoint) (t : String) : Nat :=
  (s.filter (fun r => dictLookup "text" r.payload = some (MetaVal.str t))).length

/-! ## Supporting lemmas -/

set_option maxRecDepth 40000

/-- `substrB` decides the substring relation. -/
theorem substrB_iff_substring (pat : List Char) (s : List Char) :
    substrB pat s = true ↔ pat <:+: s := by
  induction s with
  | nil => simp [substrB, List.isEmpty_iff]
  | cons c t ih =>
    simp [substrB, List.infix_cons_iff, ih, List.isPrefixOf_iff_prefix]

/-- The router returns one of its two labels. -/
theorem shouldUseWeather_two (q : String) :
    shouldUseWeather q = "weather" ∨ shouldUseWeather q = "rag" := by
  unfold shouldUseWeather
  by_cases h : weatherKeywords.any (fun k => substrB k.data (pyLower q).data) = true
  · exact Or.inl (if_pos h)
  · exact Or.inr (if_neg h)

/-- The anchor loop of the extractor returns the first effective anchor's
city, in `List.findSome?` form. -/
theorem extractLoop_eq_findSome (ql : List Char) (pats : List String) :
    extractLoop ql pats =
      (pats.findSome? (fun pat => (afterFirst pat.data ql).bind cityFromSuffix)).getD [] := by
  induction pats with
  | nil => rfl
  | cons pat pats ih =>
    unfold extractLoop
    rw [List.findSome?_cons]
    cases haf : afterFirst pat.data ql with
    | none => simpa using ih
    | some rest =>
      cases hcs : cityFromSuffix rest with
      | none => simpa [hcs] using ih
      | some city => simp [hcs]

/-- A nonempty text always produces at least one window. -/
theorem splitWindowsFuel_ne_nil (fuel : Nat) (cs : List Char)
    (hne : cs ≠ []) (hf : cs.length ≤ fuel) : splitWindowsFuel fuel cs ≠ [] := by
  cases fuel with
  | zero =>
    have : cs = [] := List.eq_nil_of_length_eq_zero (Nat.le_zero.mp hf)
    exact absurd this hne
  | succ fuel =>
    unfold splitWindowsFuel
    by_cases hle : cs.length ≤ CHUNK_SIZE
    · rw [if_pos hle]
      have he : cs.isEmpty = false := by
        cases cs with
        | nil => exact absurd rfl hne
        | cons c t => rfl
      rw [he]
      simp
    · rw [if_neg hle]
      simp

/-- Reassembling the windows of any character list gives it back. -/
theorem recon_splitWindowsFuel (fuel : Nat) :
    ∀ cs : List Char, cs.length ≤ fuel →
      reconChunks (splitWindowsFuel fuel cs) = cs := by
  induction fuel with
  | zero =>
    intro cs h
    have : cs = [] := List.eq_nil_of_length_eq_zero (Nat.le_zero.mp h)
    subst this
    rfl
  | succ fuel ih =>
    intro cs h
    unfold splitWindowsFuel
    by_cases hle : cs.length ≤ CHUNK_SIZE
    · rw [if_pos hle]
      by_cases he : cs.isEmpty
      · rw [if_pos he]
        rw [List.isEmpty_iff] at he
        simp [reconChunks, he]
      · rw [if_neg he]
        rfl
    · rw [if_neg hle]
      push_neg at hle
      have hsz : CHUNK_SIZE = 1000 := rfl
      have hstride : CHUNK_SIZE - CHUNK_OVERLAP = 800 := rfl
      rw [hsz] at hle
      have hdl : (cs.drop (CHUNK_SIZE - CHUNK_OVERLAP)).length = cs.length - 800 := by
        rw [List.length_drop, hstride]
      have hne : cs.drop (CHUNK_SIZE - CHUNK_OVERLAP) ≠ [] := by
        intro hnil
        rw [hnil] at hdl
        simp only [List.length_nil] at hdl
        omega
      have hlen : (cs.drop (CHUNK_SIZE - CHUNK_OVERLAP)).length ≤ fuel := by
        rw [hdl]
        omega
      have hrec := ih _ hlen
      cases hsw : splitWindowsFuel fuel (cs.drop (CHUNK_SIZE - CHUNK_OVERLAP)) with
      | nil => exact absurd hsw (splitWindowsFuel_ne_nil fuel _ hne hlen)
      | cons r rs =>
        rw [hsw] at hrec
        show reconChunks (cs.take CHUNK_SIZE :: r :: rs) = cs
        simp only [reconChunks]
        rw [List.take_take, hrec]
        have hmin : min (CHUNK_SIZE - CHUNK_OVERLAP) CHUNK_SIZE = CHUNK_SIZE - CHUNK_OVERLAP := by
          decide
        rw [hmin, List.take_append_drop]

/-- Looking up a key distinct from the inserted one is unchanged. -/
theorem dictLookup_dictInsert_ne (d : Dict) (k kI : String) (v : MetaVal)
    (h : kI ≠ k) : dictLookup k (dictInsert d kI v) = dictLookup k d := by
  induction d with
  | nil => simp [dictInsert, dictLookup, h]
  | cons kv rest ih =>
    obtain ⟨k0, v0⟩ := kv
    by_cases h0 : k0 = kI
    · subst h0
      simp [dictInsert, dictLookup, h]
    · by_cases hk : k0 = k
      · simp [dictInsert, h0, dictLookup, hk, Ne.symm h]
      · simp [dictInsert, h0, dictLookup, hk, ih]

/-- Looking up the inserted key finds the inserted value. -/
theorem dictLookup_dictInsert_self (d : Dict) (k : String) (v : MetaVal) :
    dictLookup k (dictInsert d k v) = some v := by
  induction d with
  | nil => simp [dictInsert, dictLookup]
  | cons kv rest ih =>
    obtain ⟨k0, v0⟩ := kv
    by_cases h0 : k0 = k
    · simp [dictInsert, dictLookup, h0]
    · simp [dictInsert, dictLookup, h0, ih]

/-- A key unbound in the overriding dictionary keeps its base binding. -/
theorem dictLookup_dictMerge_none (m : Dict) :
    ∀ (base : Dict) (k : String), dictLookup k m = none →
      dictLookup k (dictMerge base m) = dictLookup k base := by
  induction m with
  | nil =>
    intro base k _
    rfl
  | cons kv rest ih =>
    intro base k h
    obtain ⟨k0, v0⟩ := kv
    have h0 : k0 ≠ k := by
      intro he
      simp [dictLookup, he] at h
    have hrest : dictLookup k rest = none := by
      simpa [dictLookup, h0] using h
    show dictLookup k (dictMerge (dictInsert base k0 v0) rest) = dictLookup k base
    rw [ih _ _ hrest, dictLookup_dictInsert_ne _ _ _ _ h0]

/-- The injected `chunk_index` survives a merge that does not bind it. -/
theorem chunkMetadata_lookup_ci (i n : Nat) (m : Dict)
    (h : dictLookup "chunk_index" m = none) :
    dictLookup "chunk_index" (chunkMetadata i n m) = some (MetaVal.int i) := by
  unfold chunkMetadata
  rw [dictLookup_dictMerge_none _ _ _ h]
  rfl

/-- The injected `total_chunks` survives a merge that does not bind it. -/
theorem chunkMetadata_lookup_tc (i n : Nat) (m : Dict)
    (h : dictLookup "total_chunks" m = none) :
    dictLookup "total_chunks" (chunkMetadata i n m) = some (MetaVal.int n) := by
  unfold chunkMetadata
  rw [dictLookup_dictMerge_none _ _ _ h]
  rfl

/-- The embedded MD5 matches the reference digest of the empty message
(RFC 1321 test suite). -/
theorem md5Hex_empty : md5Hex (strBytes "") = "d41d8cd98f00b204e9800998ecf8427e" := by
  decide

/-- The embedded MD5 matches the reference digest of `"abc"`
(RFC 1321 test suite). -/
theorem md5Hex_abc : md5Hex (strBytes "abc") = "900150983cd24fb0d6963f7d28e17f72" := by
  decide

/-- Replacing records in place never changes the id sequence. -/
theorem storeIds_map_replace (s : List DbPoint) (p : DbPoint) :
    storeIds (s.map (fun r => if r.id = p.id then p else r)) = storeIds s := by
  unfold storeIds
  rw [List.map_map]
  apply List.map_congr_left
  intro r _
  by_cases h : r.id = p.id
  · simp [h]
  · simp [h]

/-- The `any` test of `upsertPoint` decides membership of the id. -/
theorem any_id_iff (s : List DbPoint) (i : Nat) :
    s.any (fun r => r.id = i) = true ↔ i ∈ storeIds s := by
  unfold storeIds
  rw [List.any_eq_true]
  constructor
  · rintro ⟨r, hr, hid⟩
    rw [List.mem_map]
    exact ⟨r, hr, by simpa using hid⟩
  · intro h
    rw [List.mem_map] at h
    obtain ⟨r, hr, hid⟩ := h
    exact ⟨r, hr, by simpa using hid⟩

/-- After upserting `p`, the id of `p` is live. -/
theorem mem_storeIds_upsertPoint (s : List DbPoint) (p : DbPoint) :
    p.id ∈ storeIds (upsertPoint s p) := by
  unfold upsertPoint
  by_cases h : s.any (fun r => r.id = p.id) = true
  · rw [if_pos h, storeIds_map_replace]
    exact (any_id_iff s p.id).1 h
  · rw [if_neg h]
    simp [storeIds]

/-- Upserting never removes a live id. -/
theorem mem_storeIds_upsertPoint_of_mem {i : Nat} (s : List DbPoint) (q : DbPoint)
    (h : i ∈ storeIds s) : i ∈ storeIds (upsertPoint s q) := by
  unfold upsertPoint
  by_cases ha : s.any (fun r => r.id = q.id) = true
  · rw [if_pos ha, storeIds_map_replace]
    exact h
  · rw [if_neg ha]
    unfold storeIds at *
    rw [List.map_append]
    exact List.mem_append_left _ h

/-- A live id stays live across a batch of upserts. -/
theorem mem_storeIds_upsertPoints (ps : List DbPoint) :
    ∀ (s : List DbPoint) (i : Nat), i ∈ storeIds s → i ∈ storeIds (upsertPoints s ps) := by
  induction ps with
  | nil =>
    intro s i h
    exact h
  | cons p rest ih =>
    intro s i h
    exact ih _ _ (mem_storeIds_upsertPoint_of_mem s p h)

/-- After upserting `p`, every record carrying `p.id` is `p` itself. -/
theorem upsertPoint_uniform_self (s : List DbPoint) (p : DbPoint) :
    ∀ r ∈ upsertPoint s p, r.id = p.id → r = p := by
  unfold upsertPoint
  by_cases h : s.any (fun r => r.id = p.id) = true
  · rw [if_pos h]
    intro r hr hrid
    rw [List.mem_map] at hr
    obtain ⟨r0, hr0, hfr⟩ := hr
    by_cases h0 : r0.id = p.id
    · rw [if_pos h0] at hfr
      exact hfr.symm
    · rw [if_neg h0] at hfr
      subst hfr
      exact absurd hrid h0
  · rw [if_neg h]
    intro r hr hrid
    rw [List.mem_append] at hr
    cases hr with
    | inl hrs =>
      exfalso
      apply h
      rw [List.any_eq_true]
      exact ⟨r, hrs, by simpa using hrid⟩
    | inr hrp =>
      simpa using hrp

/-- Upserting a point with a different id preserves id-uniformity. -/
theorem upsertPoint_uniform_preserve (s : List DbPoint) (q p : DbPoint) (i : Nat)
    (hqi : q.id ≠ i) (H : ∀ r ∈ s, r.id = i → r = p) :
    ∀ r ∈ upsertPoint s q, r.id = i → r = p := by
  unfold upsertPoint
  by_cases h : s.any (fun r => r.id = q.id) = true
  · rw [if_pos h]
    intro r hr hrid
    rw [List.mem_map] at hr
    obtain ⟨r0, hr0, hfr⟩ := hr
    by_cases h0 : r0.id = q.id
    · rw [if_pos h0] at hfr
      subst hfr
      exact absurd hrid hqi
    · rw [if_neg h0] at hfr
      subst hfr
      exact H r0 hr0 hrid
  · rw [if_neg h]
    intro r hr hrid
    rw [List.mem_append] at hr
    cases hr with
    | inl hrs => exact H r hrs hrid
    | inr hrp =>
      have hq : r = q := by simpa using hrp
      subst hq
      exact absurd hrid hqi

/-- A batch that never touches id `i` preserves id-uniformity at `i`. -/
theorem upsertPoints_uniform_preserve (qs : List DbPoint) :
    ∀ (s : List DbPoint) (p : DbPoint) (i : Nat), i ∉ qs.map DbPoint.id →
      (∀ r ∈ s, r.id = i → r = p) →
      ∀ r ∈ upsertPoints s qs, r.id = i → r = p := by
  induction qs with
  | nil =>
    intro s p i _ H
    exact H
  | cons q rest ih =>
    intro s p i hni H
    simp only [List.map_cons, List.mem_cons, not_or] at hni
    obtain ⟨h1, h2⟩ := hni
    exact ih _ _ _ h2 (upsertPoint_uniform_preserve s q p i (fun he => h1 he.symm) H)

/-- Upserting a point the store already holds verbatim is a no-op. -/
theorem upsertPoint_eq_self (A : List DbPoint) (p : DbPoint)
    (hmem : p.id ∈ storeIds A) (huni : ∀ r ∈ A, r.id = p.id → r = p) :
    upsertPoint A p = A := by
  unfold upsertPoint
  rw [if_pos ((any_id_iff A p.id).2 hmem)]
  have h : ∀ r ∈ A, (if r.id = p.id then p else r) = id r := by
    intro r hr
    by_cases hc : r.id = p.id
    · rw [if_pos hc]
      exact (huni r hr hc).symm
    · rw [if_neg hc]
      rfl
  rw [List.map_congr_left h, List.map_id]

/-- Upserting a batch with pairwise distinct ids twice equals once. -/
theorem upsertPoints_twice (ps : List DbPoint) :
    ∀ s : List DbPoint, (ps.map DbPoint.id).Nodup →
      upsertPoints (upsertPoints s ps) ps = upsertPoints s ps := by
  induction ps with
  | nil =>
    intro s _
    rfl
  | cons p rest ih =>
    intro s hnd
    simp only [List.map_cons, List.nodup_cons] at hnd
    obtain ⟨hpn, hrest⟩ := hnd
    show upsertPoints (upsertPoint (upsertPoints (upsertPoint s p) rest) p) rest =
      upsertPoints (upsertPoint s p) rest
    have hA : upsertPoint (upsertPoints (upsertPoint s p) rest) p =
        upsertPoints (upsertPoint s p) rest := by
      apply upsertPoint_eq_self
      · exact mem_storeIds_upsertPoints rest _ _ (mem_storeIds_upsertPoint s p)
      · exact upsertPoints_uniform_preserve rest _ _ _ hpn (upsertPoint_uniform_self s p)
    rw [hA]
    exact ih (upsertPoint s p) hrest

/-- Upserting preserves distinctness of the live ids. -/
theorem nodup_storeIds_upsertPoint (s : List DbPoint) (p : DbPoint)
    (h : (storeIds s).Nodup) : (storeIds (upsertPoint s p)).Nodup := by
  unfold upsertPoint
  by_cases ha : s.any (fun r => r.id = p.id) = true
  · rw [if_pos ha, storeIds_map_replace]
    exact h
  · rw [if_neg ha]
    have hst : storeIds (s ++ [p]) = storeIds s ++ [p.id] := by simp [storeIds]
    rw [hst, List.nodup_append]
    refine ⟨h, List.nodup_singleton _, ?_⟩
    intro i hi hip
    have hip2 : i = p.id := by simpa using hip
    exact ha ((any_id_iff s p.id).2 (hip2 ▸ hi))

/-- The single-text batch builds exactly one point. -/
theorem buildPoints_singleton (t : String) (m : Dict) (emb : String → List Int) :
    buildPoints [t] [m] emb =
      [{ id := mkPointId t 0, vector := emb t,
         payload := dictInsert m "text" (MetaVal.str t) }] := rfl

/-! ## Claim theorems -/

/-- **C1**: for every query string, the router answers WEATHER exactly when
some keyword of the fixed vocabulary (base words and phrase variants) is a
substring of the lower-cased query, and DOCUMENT_QA otherwise; `classify`
is a pure total function of the query. -/
theorem classify_weather_iff (q : String) :
    (classify q = Route.WEATHER ↔
      ∃ k ∈ weatherKeywords, k.data <:+: (pyLower q).data) ∧
    (classify q = Route.DOCUMENT_QA ↔
      ¬ ∃ k ∈ weatherKeywords, k.data <:+: (pyLower q).data) := by
  have hiff : (weatherKeywords.any (fun k => substrB k.data (pyLower q).data) = true) ↔
      ∃ k ∈ weatherKeywords, k.data <:+: (pyLower q).data := by
    rw [List.any_eq_true]
    constructor
    · rintro ⟨k, hk, hs⟩
      exact ⟨k, hk, (substrB_iff_substring _ _).1 hs⟩
    · rintro ⟨k, hk, hs⟩
      exact ⟨k, hk, (substrB_iff_substring _ _).2 hs⟩
  by_cases h : weatherKeywords.any (fun k => substrB k.data (pyLower q).data) = true
  · have hs : shouldUseWeather q = "weather" := by unfold shouldUseWeather; rw [if_pos h]
    unfold classify
    rw [hs, if_pos rfl]
    exact ⟨iff_of_true rfl (hiff.1 h),
      iff_of_false (by decide) (not_not_intro (hiff.1 h))⟩
  · have hs : shouldUseWeather q = "rag" := by unfold shouldUseWeather; rw [if_neg h]
    unfold classify
    rw [hs, if_neg (by decide)]
    exact ⟨iff_of_false (by decide) (fun hex => h (hiff.2 hex)),
      iff_of_true rfl (fun hex => h (hiff.2 hex))⟩

/-- **C2**: `process_query` always returns a structured result carrying the
query, a response and the route of the branch taken; an error outcome of
the weather or RAG component is converted, inside the handler that took it,
into an apology string embedding the error text — it never escapes
`process_query` as a fault. -/
theorem processQuery_spec (getw : String → Except String WeatherRecord)
    (rag : String → Except String RagResult) (q : String) :
    (processQuery getw rag q).query = q ∧
    (processQuery getw rag q).route = shouldUseWeather q ∧
    (∀ e, shouldUseWeather q = "weather" → extractCity q ≠ "" →
      getw (extractCity q) = Except.error e →
      (processQuery getw rag q).response =
        "Sorry, I encountered an error fetching weather data: " ++ e) ∧
    (∀ e, shouldUseWeather q = "rag" → rag q = Except.error e →
      (processQuery getw rag q).response =
        "Sorry, I encountered an error processing your query: " ++ e) := by
  refine ⟨rfl, ?_, ?_, ?_⟩
  · rcases shouldUseWeather_two q with hw | hr
    · rw [hw]
      by_cases hc : extractCity q = ""
      · simp [processQuery, routeQueryNode, hw, handleWeather, hc]
      · cases hg : getw (extractCity q) <;>
          simp [processQuery, routeQueryNode, hw, handleWeather, hc, hg]
    · rw [hr]
      have hw : shouldUseWeather q ≠ "weather" := by rw [hr]; decide
      cases hg : rag q <;>
        simp [processQuery, routeQueryNode, hw, handleRag, hg]
  · intro e hw hne hge
    simp [processQuery, routeQueryNode, hw, handleWeather, hne, hge]
  · intro e hr hge
    have hw : shouldUseWeather q ≠ "weather" := by rw [hr]; decide
    simp [processQuery, routeQueryNode, hw, handleRag, hge]

/-- **C2 witness**: concrete failing services; the apology strings embed the
error text and the caller still receives a structured result. -/
theorem processQuery_spec_witness :
    (processQuery (fun _ => Except.error "boom")
        (fun _ => Except.ok { answer := "a", sources := [], retrieved_chunks := [] })
        "weather in Paris").response =
      "Sorry, I encountered an error fetching weather data: boom" ∧
    (processQuery (fun _ => Except.error "x") (fun _ => Except.error "ragfail")
        "Tell me about AI").response =
      "Sorry, I encountered an error processing your query: ragfail" := by
  constructor
  · exact (processQuery_spec (fun _ => Except.error "boom")
      (fun _ => Except.ok { answer := "a", sources := [], retrieved_chunks := [] })
      "weather in Paris").2.2.1 "boom" (by decide) (by decide) rfl
  · exact (processQuery_spec (fun _ => Except.error "x") (fun _ => Except.error "ragfail")
      "Tell me about AI").2.2.2 "ragfail" (by decide) rfl

/-- **C3 counterexample**: on `"weather in "` the first anchor present is
`"in "`, whose suffix after splitting and cleaning holds no word, so the
claimed first-anchor algorithm yields `""`; the code instead falls through
to the `"weather "` anchor and returns `"In"`. -/
theorem extractCity_counterexample :
    extractCity "weather in " = "In" ∧
    extractCityFirstAnchorSpec "weather in " = "" := by
  exact ⟨by decide, by decide⟩

/-- **C3 (amended)**: the extractor scans the anchors in priority order, but
an anchor whose suffix yields no word is skipped and the scan continues;
the result is the processed suffix of the first effective anchor (split at
its first occurrence, trailing `? . , !` and whitespace stripped, first word
— or first two words for the multi-word-city first words — title-cased),
and `""` when no anchor qualifies. The three example queries behave as the
spec states. -/
theorem extractCity_amended_spec :
    (∀ q : String, extractCity q = extractCityAmendedSpec q) ∧
    extractCity "What\x27s the weather in London?" = "London" ∧
    extractCity "Temperature in New York" = "New York" ∧
    extractCity "Tell me about AI" = "" := by
  refine ⟨fun q => ?_, by decide, by decide, by decide⟩
  unfold extractCity extractCityAmendedSpec
  rw [extractLoop_eq_findSome]
  cases h : cityAnchors.findSome?
      (fun pat => (afterFirst pat.data (pyLower q).data).bind cityFromSuffix) with
  | none =>
    simp only [h]
    rfl
  | some city =>
    simp only [h]
    rfl

/-- **C7**: on empty retrieval, `RAGService.query` short-circuits to the
fixed no-information answer with empty sources and chunks, independently of
the language model. -/
theorem ragQuery_empty (search : String → Nat → List RetrievedDoc)
    (llm : String → String → String) (question : String) (topK : Nat)
    (h : search question topK = []) :
    ragQuery search llm question topK =
      { answer := noInfoAnswer, sources := [], retrieved_chunks := [] } ∧
    ∀ llm' : String → String → String,
      ragQuery search llm' question topK = ragQuery search llm question topK := by
  constructor
  · simp [ragQuery, h]
  · intro llm'
    simp [ragQuery, h]

/-- **C7 witness**: an empty store yields the fixed answer. -/
theorem ragQuery_empty_witness :
    ragQuery (fun _ _ => []) (fun _ _ => "model says") "What is the deadline?" 3 =
      { answer := noInfoAnswer, sources := [], retrieved_chunks := [] } :=
  (ragQuery_empty (fun _ _ => []) (fun _ _ => "model says") "What is the deadline?" 3 rfl).1

/-- **C9**: when city extraction returns the empty-string sentinel, the
weather handler answers the fixed guidance message with route `"weather"`
and never consults the weather lookup service (its result does not depend
on it). -/
theorem handleWeather_empty_city (getw : String → Except String WeatherRecord)
    (st : AgentState) (h : extractCity st.query = "") :
    handleWeather getw st = { st with response := guidanceMessage, route := "weather" } ∧
    ∀ getw' : String → Except String WeatherRecord,
      handleWeather getw' st = handleWeather getw st := by
  constructor
  · simp [handleWeather, h]
  · intro getw'
    simp [handleWeather, h]

/-- **C9 witness**: the query `"weather"` routes to the weather branch but
yields no city; failing and succeeding lookup services give the same fixed
guidance response. -/
theorem handleWeather_empty_city_witness :
    handleWeather (fun _ => Except.error "boom")
        { messages := [], query := "weather", route := "", response := "" } =
      { messages := [], query := "weather", route := "weather", response := guidanceMessage } ∧
    handleWeather
        (fun _ => Except.ok ⟨"Tokyo", "JP", 20, 19, 50, 1000, "clear", 5, none, "metric"⟩)
        { messages := [], query := "weather", route := "", response := "" } =
      handleWeather (fun _ => Except.error "boom")
        { messages := [], query := "weather", route := "", response := "" } := by
  have h := handleWeather_empty_city (fun _ => Except.error "boom")
    { messages := [], query := "weather", route := "", response := "" } (by decide)
  exact ⟨h.1, h.2 _⟩

/-- **C10**: a present-but-zero raw visibility is mapped to `None` by
`get_weather`, and the report's visibility line shows the em-dash
placeholder; a kilometre value with one decimal appears exactly when the
raw visibility is present and nonzero. -/
theorem getWeather_visibility (d : ApiData) (units : String) :
    (d.visibility = some 0 →
      (getWeather d units).visibility = none ∧
      (responseLines (getWeather d units))[6]? = some "- **Visibility:** —") ∧
    (∀ n : Int, d.visibility = some n → n ≠ 0 →
      (getWeather d units).visibility = some ((n : Rat) / 1000) ∧
      (responseLines (getWeather d units))[6]? =
        some ("- **Visibility:** " ++ fmt1 ((n : Rat) / 1000) ++ " km")) := by
  constructor
  · intro h
    have hv : (getWeather d units).visibility = none := by simp [getWeather, h]
    exact ⟨hv, by simp [responseLines, visibilityText, hv]⟩
  · intro n h hn
    have hv : (getWeather d units).visibility = some ((n : Rat) / 1000) := by
      simp [getWeather, h, hn]
    exact ⟨hv, by simp [responseLines, visibilityText, hv, String.append_assoc]⟩

/-- **C10 witness**: a payload with visibility present and equal to zero. -/
theorem getWeather_visibility_witness :
    (getWeather ⟨"Tokyo", "JP", 20, 19, 50, 1000, "clear sky", some 5, some 0⟩
        "metric").visibility = none ∧
    (responseLines (getWeather ⟨"Tokyo", "JP", 20, 19, 50, 1000, "clear sky", some 5, some 0⟩
        "metric"))[6]? = some "- **Visibility:** —" :=
  (getWeather_visibility ⟨"Tokyo", "JP", 20, 19, 50, 1000, "clear sky", some 5, some 0⟩
    "metric").1 rfl

/-- **C4**: concatenating suitable non-overlapping spans of the chunks
produced by `chunk_text` — the leading `CHUNK_SIZE - CHUNK_OVERLAP`
characters of every chunk but the last, and the last chunk whole —
reconstructs the input text exactly, so every input character appears in at
least one chunk. (The splitter itself is modelled from the spec, §4.4.) -/
theorem chunkText_roundtrip (t : String) (m : Dict) :
    reconChunks (((chunkText t m).map (fun c => c.text)).map String.data) = t.data := by
  have h1 : (chunkText t m).map (fun c => c.text) = splitText t := by
    simp only [chunkText]
    rw [List.map_map]
    have h : ((fun c : Chunk => c.text) ∘ (fun p : Nat × String =>
        ({ text := p.2, metadata := chunkMetadata p.1 (splitText t).length m } : Chunk))) =
        Prod.snd := rfl
    rw [h, List.enum_map_snd]
  rw [h1]
  unfold splitText
  rw [List.map_map]
  have h2 : (String.data ∘ String.mk) = id := rfl
  rw [h2, List.map_id]
  exact recon_splitWindowsFuel t.data.length t.data le_rfl

/-- **C8 counterexample**: `chunk_text` builds each chunk's metadata as
`{"chunk_index": idx, "total_chunks": n, **metadata}`, so a caller metadata
mapping that itself binds `chunk_index` overrides the injected ordinal:
with metadata `{"chunk_index": 99}` the single chunk of `"hello"` carries
`chunk_index` 99, not its position 0. -/
theorem chunkText_metadata_counterexample :
    ((chunkText "hello" [("chunk_index", MetaVal.int 99)]).map
      (fun c => dictLookup "chunk_index" c.metadata)) = [some (MetaVal.int 99)] ∧
    some (MetaVal.int 99) ≠ some (MetaVal.int 0) :=
  ⟨by decide, by decide⟩

/-- **C8 (amended)**: for every input text and every metadata mapping that
does not itself bind `chunk_index` or `total_chunks`, each produced chunk
carries `chunk_index` equal to its position and a `total_chunks` equal to
the produced sequence length, identical across the call; empty input
yields the empty sequence, not an error. -/
theorem chunkText_metadata_amended (t : String) (m : Dict)
    (hci : dictLookup "chunk_index" m = none)
    (htc : dictLookup "total_chunks" m = none) :
    (∀ i (h : i < (chunkText t m).length),
      dictLookup "chunk_index" ((chunkText t m).get ⟨i, h⟩).metadata =
        some (MetaVal.int i) ∧
      dictLookup "total_chunks" ((chunkText t m).get ⟨i, h⟩).metadata =
        some (MetaVal.int ((chunkText t m).length))) ∧
    (t = "" → chunkText t m = []) := by
  constructor
  · intro i h
    rw [List.get_eq_getElem]
    simp only [chunkText, List.getElem_map, List.getElem_enum,
      List.length_map, List.enum_length]
    exact ⟨chunkMetadata_lookup_ci _ _ _ hci, chunkMetadata_lookup_tc _ _ _ htc⟩
  · intro ht
    subst ht
    rfl

/-- **C8 witness**: a non-colliding metadata mapping on a one-chunk text. -/
theorem chunkText_metadata_amended_witness :
    dictLookup "chunk_index"
      ((chunkText "hello" [("source", MetaVal.str "doc")]).get ⟨0, by decide⟩).metadata =
      some (MetaVal.int 0) :=
  ((chunkText_metadata_amended "hello" [("source", MetaVal.str "doc")]
    (by decide) (by decide)).1 0 (by decide)).1

/-- **C5 counterexample**: the batch `["c21849", "c58493"]` holds two
distinct texts whose 32-bit MD5-prefix hashes differ by exactly 1, so with
batch indices 0 and 1 both records get id 3692840400; the second upsert
overwrites the first and the store ends with a single live record although
two distinct texts were ingested. -/
theorem pointId_counterexample :
    ("c21849" ≠ "c58493") ∧
    mkPointId "c21849" 0 = mkPointId "c58493" 1 ∧
    storeIds (addDocuments [] ["c21849", "c58493"] [] (fun _ => [])) = [3692840400] :=
  ⟨by decide, by decide, by decide⟩

/-- **C5 (amended)**: the id is the text's hash perturbed by the batch-local
index, so identical texts within one batch always receive distinct ids, and
the store never holds two live records with the same id (upsert overwrite
semantics) — but distinct texts are not guaranteed distinct ids: a
hash-plus-index collision makes one record silently overwrite another of
different text. -/
theorem pointId_amended :
    (∀ (t : String) (i j : Nat), i ≠ j → mkPointId t i ≠ mkPointId t j) ∧
    (∀ s ps : List DbPoint,
      (storeIds s).Nodup → (storeIds (upsertPoints s ps)).Nodup) := by
  constructor
  · intro t i j hij
    unfold mkPointId
    omega
  · intro s ps
    induction ps generalizing s with
    | nil =>
      intro h
      exact h
    | cons p rest ih =>
      intro h
      exact ih _ (nodup_storeIds_upsertPoint s p h)

/-- **C5 witness**: duplicate text at distinct batch indices, and id
distinctness maintained from an empty store. -/
theorem pointId_amended_witness :
    mkPointId "x" 0 ≠ mkPointId "x" 1 ∧
    (storeIds (upsertPoints [] [{ id := 5, vector := [], payload := [] }])).Nodup :=
  ⟨pointId_amended.1 "x" 0 1 (by decide),
   pointId_amended.2 [] [{ id := 5, vector := [], payload := [] }] (by simp [storeIds])⟩

/-- **C6**: ingesting the same batch twice leaves the store exactly as one
ingest does — each text gets the same id at the same batch position, so the
second write overwrites the first instead of appending — and for a store
not yet holding the text (nor a colliding id), a doubly ingested single
chunk text is held by exactly one retrievable record. -/
theorem addDocuments_idempotent (emb : String → List Int) :
    (∀ (s : List DbPoint) (texts : List String) (metas : List Dict),
      ((buildPoints texts metas emb).map DbPoint.id).Nodup →
      addDocuments (addDocuments s texts metas emb) texts metas emb =
        addDocuments s texts metas emb) ∧
    (∀ (s : List DbPoint) (t : String) (m : Dict),
      (∀ r ∈ s, dictLookup "text" r.payload ≠ some (MetaVal.str t)) →
      (∀ r ∈ s, r.id ≠ mkPointId t 0) →
      countText (addDocuments (addDocuments s [t] [m] emb) [t] [m] emb) t = 1) := by
  have hmain : ∀ (s : List DbPoint) (texts : List String) (metas : List Dict),
      ((buildPoints texts metas emb).map DbPoint.id).Nodup →
      addDocuments (addDocuments s texts metas emb) texts metas emb =
        addDocuments s texts metas emb := by
    intro s texts metas hnd
    by_cases he : texts.isEmpty = true
    · simp only [addDocuments, if_pos he]
    · simp only [addDocuments, if_neg he]
      exact upsertPoints_twice _ _ hnd
  refine ⟨hmain, ?_⟩
  intro s t m htext hid
  have hsingle : ((buildPoints [t] [m] emb).map DbPoint.id).Nodup := by
    rw [buildPoints_singleton]
    simp
  rw [hmain s [t] [m] hsingle]
  have hany : ¬ (s.any (fun r => r.id = mkPointId t 0) = true) := by
    intro hc
    rw [List.any_eq_true] at hc
    obtain ⟨r, hr, hrid⟩ := hc
    exact hid r hr (by simpa using hrid)
  have h1 : addDocuments s [t] [m] emb = s ++
      [{ id := mkPointId t 0, vector := emb t,
         payload := dictInsert m "text" (MetaVal.str t) }] := by
    have hstep : addDocuments s [t] [m] emb = upsertPoint s { id := mkPointId t 0, vector := emb t, payload := dictInsert m "text" (MetaVal.str t) } := rfl
    rw [hstep]
    unfold upsertPoint
    rw [if_neg hany]
  rw [h1]
  unfold countText
  rw [List.filter_append]
  have hs0 : s.filter (fun r => dictLookup "text" r.payload = some (MetaVal.str t)) = [] := by
    rw [List.filter_eq_nil_iff]
    intro r hr
    simpa using htext r hr
  rw [hs0]
  simp [dictLookup_dictInsert_self]

/-- **C6 witness**: double ingest of a concrete one-chunk batch into an
empty store. -/
theorem addDocuments_idempotent_witness :
    addDocuments (addDocuments [] ["chunk"] [[]] (fun _ => [])) ["chunk"] [[]] (fun _ => []) =
      addDocuments [] ["chunk"] [[]] (fun _ => []) ∧
    countText (addDocuments (addDocuments [] ["chunk"] [[]] (fun _ => []))
      ["chunk"] [[]] (fun _ => [])) "chunk" = 1 := by
  constructor
  · exact (addDocuments_idempotent (fun _ => [])).1 [] ["chunk"] [[]]
      (by rw [buildPoints_singleton]; simp)
  · exact (addDocuments_idempotent (fun _ => [])).2 [] "chunk" []
      (fun r hr => absurd hr (List.not_mem_nil r))
      (fun r hr => absurd hr (List.not_mem_nil r))

end WeatherAgent
